import Mathlib

/-!
# Verification of `naoqi_dcm_driver`'s joint diagnostics aggregator

Shallow embedding of `src/diagnostics.cpp` (class `Diagnostics`).

Modelling choices:
* `float` readings and thresholds become `ℚ`; the code only compares and
  takes `min`/`max`, never does float arithmetic, so ordering is preserved.
* `diagnostic_msgs::DiagnosticStatus::_level_type` (a byte holding
  OK=0, WARN=1, ERROR=2) becomes `Nat`; the code only compares levels and
  never overflows.
* A `DiagnosticStatusWrapper` becomes the structure `Wrapper`; ROS stringifies
  the `add`ed float values into `KeyValue`s, here they stay `ℚ` under their
  keys.  The `Hot Joints` stream (built from `"\n" <name> ": " <t> "°C"`
  fragments) is kept as the list of `(name, temperature)` lines it renders.
* The `getListData` bulk read either raises (`Except.error`) or returns the
  flat value vector (`Except.ok`).
* `values[val++]` is positional indexing with no bound check; reading out of
  range is undefined behaviour, so the embedded `publish` returns an
  `Option`, `none` marking a cycle that reads past the end of the response.
-/

set_option autoImplicit false

namespace NaoqiDiag

/-- `diagnostic_msgs::DiagnosticStatus::OK`. -/
def OKlvl : Nat := 0

/-- `diagnostic_msgs::DiagnosticStatus::WARN`. -/
def WARNlvl : Nat := 1

/-- `diagnostic_msgs::DiagnosticStatus::ERRORlvl`. -/
def ERRORlvl : Nat := 2

/-- A `diagnostic_updater::DiagnosticStatusWrapper` as filled by this file:
name, hardware id, level, message, the `add`ed numeric key/values, and the
`Hot Joints` text block as its `(name, temperature)` lines. -/
structure Wrapper where
  name : String
  hardware_id : String
  level : Nat
  message : String
  numValues : List (String × ℚ) := []
  hotJoints : List (String × ℚ) := []
  deriving DecidableEq, Repr

/-- The mutable running overall status field `status_` (only its `level` and
`message` are ever rewritten after construction). -/
structure RunningStatus where
  level : Nat
  message : String
  deriving DecidableEq, Repr

/-- `status_` as the constructor leaves it: level OK, message "OK". -/
def initialStatus : RunningStatus := { level := OKlvl, message := "OK" }

/-- `temperature_warn_level_`, fixed to `68.0f` in the constructor. -/
def temperature_warn_level : ℚ := 68

/-- The constructor loop filling `keys_tocheck_`: three derived keys per
joint, in joint order. -/
def keys_tocheck (joints_all_names : List String) : List String :=
  joints_all_names.flatMap fun j =>
    [ "Device/SubDeviceList/" ++ j ++ "/Temperature/Sensor/Value"
    , "Device/SubDeviceList/" ++ j ++ "/Hardness/Actuator/Value"
    , "Device/SubDeviceList/" ++ j ++ "/ElectricCurrent/Sensor/Value" ]

/-- `Diagnostics::setMessageFromStatus`: the message written into a status
of the given level. -/
def setMessageFromStatus (level : Nat) : String :=
  if level = OKlvl then "OK"
  else if level = WARNlvl then "WARN"
  else "ERROR"

/-- `Diagnostics::setAggregatedMessage`: fold one record's level/message into
the running status, overwriting only on strict escalation. -/
def setAggregatedMessage (status : Nat × String) (running : RunningStatus) :
    RunningStatus :=
  if running.level < status.1 then { level := status.1, message := status.2 }
  else running

/-- `std::string::find("Hand") != npos`: the name contains `"Hand"`. -/
def containsHand (name : String) : Prop :=
  "Hand".toList <:+: name.toList

instance (name : String) : Decidable (containsHand name) :=
  List.decidableInfix _ _

/-- The loop state of `Diagnostics::publish`: the read cursor `val`, the
running `status_`, the local aggregation variables, and the records pushed
into `msg.status` so far. -/
structure LoopState where
  val : Nat
  running : RunningStatus
  max_level : Nat
  maxTemperature : ℚ
  maxStiffness : ℚ
  minStiffness : ℚ
  minStiffnessWoHands : ℚ
  maxCurrent : ℚ
  minCurrent : ℚ
  hotJoints : List (String × ℚ)
  records : List Wrapper
  deriving DecidableEq, Repr

/-- The state of `publish` at the top of the per-joint loop: cycle-reset
`status_` and the seed values of lines 85–92. -/
def initState : LoopState :=
  { val := 0
  , running := { level := OKlvl, message := "OK" }
  , max_level := OKlvl
  , maxTemperature := 0
  , maxStiffness := 0
  , minStiffness := 1
  , minStiffnessWoHands := 1
  , maxCurrent := 0
  , minCurrent := 10
  , hotJoints := []
  , records := [] }

/-- Lines 123–138 of `publish`: classify one joint from its temperature. -/
def classifyJoint (temperature_error_level : ℚ) (name : String) (t : ℚ) :
    Nat × String :=
  if t < temperature_warn_level then (OKlvl, "OK")
  else if t < temperature_error_level then (WARNlvl, "Hot")
  else (ERRORlvl, "HIGH JOINT TEMPERATURE : " ++ name)

/-- The per-joint record pushed into `msg.status` (lines 110–121 plus the
classification). -/
def jointRecord (temperature_error_level : ℚ) (name : String)
    (t s c : ℚ) : Wrapper :=
  { name := "naoqi_dcm_driver_joints" ++ name
  , hardware_id := name
  , level := (classifyJoint temperature_error_level name t).1
  , message := (classifyJoint temperature_error_level name t).2
  , numValues := [("Temperature", t), ("Stiffness", s), ("ElectricCurrent", c)] }

/-- One iteration of the per-joint loop (lines 108–155), reading
`values[val]`, `values[val+1]`, `values[val+2]`; `none` if any index is out
of range. -/
def publishStep (temperature_error_level : ℚ) (values : List ℚ)
    (name : String) (st : LoopState) : Option LoopState := do
  let temperature ← values.get? st.val
  let stiffness ← values.get? (st.val + 1)
  let current ← values.get? (st.val + 2)
  let cls := classifyJoint temperature_error_level name temperature
  let record := jointRecord temperature_error_level name temperature stiffness current
  some
    { val := st.val + 3
    , running := setAggregatedMessage cls st.running
    , max_level := max st.max_level cls.1
    , maxTemperature := max st.maxTemperature temperature
    , maxStiffness := max st.maxStiffness stiffness
    , minStiffness := min st.minStiffness stiffness
    , minStiffnessWoHands :=
        if containsHand name then st.minStiffnessWoHands
        else min st.minStiffnessWoHands stiffness
    , maxCurrent := max st.maxCurrent current
    , minCurrent := min st.minCurrent current
    , hotJoints :=
        if WARNlvl ≤ cls.1 then st.hotJoints ++ [(name, temperature)]
        else st.hotJoints
    , records := st.records ++ [record] }

/-- The whole per-joint loop of `publish` over the joint-name list. -/
def publishLoop (temperature_error_level : ℚ) (values : List ℚ) :
    List String → LoopState → Option LoopState
  | [], st => some st
  | name :: rest, st => do
      let st' ← publishStep temperature_error_level values name st
      publishLoop temperature_error_level values rest st'

/-- The aggregated record built in lines 157–170 from the final loop state. -/
def aggRecord (st : LoopState) : Wrapper :=
  { name := "naoqi_dcm_driver_joints:Status"
  , hardware_id := "joints"
  , level := st.max_level
  , message := setMessageFromStatus st.max_level
  , numValues :=
      [ ("Highest Temperature", st.maxTemperature)
      , ("Highest Stiffness", st.maxStiffness)
      , ("Lowest Stiffness", st.minStiffness)
      , ("Lowest Stiffness without Hands", st.minStiffnessWoHands)
      , ("Highest Electric Current", st.maxCurrent)
      , ("Lowest Electric current", st.minCurrent) ]
  , hotJoints := st.hotJoints }

/-- The observable outcome of one `publish` call: the diagnostic-array
messages emitted on the publisher (zero or one), the boolean return, and the
`status_` field when the call returns. -/
structure PublishResult where
  msgs : List (List Wrapper)
  ret : Bool
  status : RunningStatus
  deriving DecidableEq, Repr

/-- `Diagnostics::publish` (lines 75–180).  `bulkRead` is the outcome of the
`getListData` call; `none` overall marks the undefined out-of-range read. -/
def publish (joints_all_names : List String) (temperature_error_level : ℚ)
    (bulkRead : Except String (List ℚ)) : Option PublishResult :=
  match bulkRead with
  | .error _ =>
      some { msgs := []
           , ret := false
           , status := { level := OKlvl, message := "OK" } }
  | .ok values =>
      match publishLoop temperature_error_level values joints_all_names initState with
      | none => none
      | some st =>
          some { msgs := [st.records ++ [aggRecord st]]
               , ret := if ERRORlvl ≤ st.running.level then false else true
               , status := st.running }

/-- `Diagnostics::getStatusMsg`. -/
def getStatusMsg (status : RunningStatus) : String :=
  status.message

/-! ## Specification-level views of the loop

`readingsSpec names vs` chunks the flat response into
`(joint, temperature, stiffness, current)` quadruples, joint by joint; it is
the positional 1:1 mapping the spec talks about.  The loop is then shown to
agree with folds over this list. -/

/-- Chunk the flat bulk-read response into per-joint quadruples
`(name, temperature, stiffness, current)`. -/
def readingsSpec : List String → List ℚ → List (String × ℚ × ℚ × ℚ)
  | [], _ => []
  | name :: rest, t :: s :: c :: vs => (name, t, s, c) :: readingsSpec rest vs
  | _ :: _, _ => []

/-- The per-joint records of a cycle, as a map over the chunked readings. -/
def recordsSpec (temperature_error_level : ℚ) (names : List String)
    (vs : List ℚ) : List Wrapper :=
  (readingsSpec names vs).map fun x =>
    jointRecord temperature_error_level x.1 x.2.1 x.2.2.1 x.2.2.2

theorem getElem?_some_drop {l : List ℚ} {n : Nat} {x : ℚ}
    (h : l[n]? = some x) : l.drop n = x :: l.drop (n + 1) := by
  have hn : n < l.length := by
    by_contra hc
    rw [List.getElem?_eq_none (Nat.le_of_not_lt hc)] at h
    exact Option.noConfusion h
  rw [List.drop_eq_getElem_cons hn]
  rw [List.getElem?_eq_getElem hn] at h
  simp_all

theorem publishStep_eq (E : ℚ) (vs : List ℚ) (name : String) (st : LoopState)
    {t s c : ℚ} (ht : vs[st.val]? = some t)
    (hs : vs[st.val + 1]? = some s)
    (hc : vs[st.val + 2]? = some c) :
    publishStep E vs name st = some
      { val := st.val + 3
      , running := setAggregatedMessage (classifyJoint E name t) st.running
      , max_level := max st.max_level (classifyJoint E name t).1
      , maxTemperature := max st.maxTemperature t
      , maxStiffness := max st.maxStiffness s
      , minStiffness := min st.minStiffness s
      , minStiffnessWoHands :=
          if containsHand name then st.minStiffnessWoHands
          else min st.minStiffnessWoHands s
      , maxCurrent := max st.maxCurrent c
      , minCurrent := min st.minCurrent c
      , hotJoints :=
          if WARNlvl ≤ (classifyJoint E name t).1 then
            st.hotJoints ++ [(name, t)]
          else st.hotJoints
      , records := st.records ++ [jointRecord E name t s c] } := by
  simp [publishStep, ht, hs, hc]

theorem publishStep_none (E : ℚ) (vs : List ℚ) (name : String)
    (st : LoopState) (h : publishStep E vs name st = none) :
    vs.length < st.val + 3 := by
  by_contra hc
  have h3 : st.val + 2 < vs.length := by omega
  have ht := List.getElem?_eq_getElem (l := vs) (n := st.val) (by omega)
  have hs := List.getElem?_eq_getElem (l := vs) (n := st.val + 1) (by omega)
  have hcu := List.getElem?_eq_getElem (l := vs) (n := st.val + 2) h3
  rw [publishStep_eq E vs name st ht hs hcu] at h
  exact Option.noConfusion h

/-- Full characterization of the per-joint loop: every loop variable is a
fold over the chunked readings `readingsSpec names (vs.drop st.val)`. -/
theorem publishLoop_char (E : ℚ) (vs : List ℚ) :
    ∀ (names : List String) (st st' : LoopState),
      publishLoop E vs names st = some st' →
      st'.val = st.val + 3 * names.length ∧
      (readingsSpec names (vs.drop st.val)).length = names.length ∧
      st'.records = st.records ++ recordsSpec E names (vs.drop st.val) ∧
      st'.running = (readingsSpec names (vs.drop st.val)).foldl
        (fun rs x => setAggregatedMessage (classifyJoint E x.1 x.2.1) rs)
        st.running ∧
      st'.max_level = (readingsSpec names (vs.drop st.val)).foldl
        (fun m x => max m (classifyJoint E x.1 x.2.1).1) st.max_level ∧
      st'.maxTemperature = (readingsSpec names (vs.drop st.val)).foldl
        (fun m x => max m x.2.1) st.maxTemperature ∧
      st'.maxStiffness = (readingsSpec names (vs.drop st.val)).foldl
        (fun m x => max m x.2.2.1) st.maxStiffness ∧
      st'.minStiffness = (readingsSpec names (vs.drop st.val)).foldl
        (fun m x => min m x.2.2.1) st.minStiffness ∧
      st'.minStiffnessWoHands = (readingsSpec names (vs.drop st.val)).foldl
        (fun m x => if containsHand x.1 then m else min m x.2.2.1)
        st.minStiffnessWoHands ∧
      st'.maxCurrent = (readingsSpec names (vs.drop st.val)).foldl
        (fun m x => max m x.2.2.2) st.maxCurrent ∧
      st'.minCurrent = (readingsSpec names (vs.drop st.val)).foldl
        (fun m x => min m x.2.2.2) st.minCurrent := by
  intro names
  induction names with
  | nil =>
      intro st st' h
      simp [publishLoop] at h
      subst h
      simp [readingsSpec, recordsSpec]
  | cons n rest ih =>
      intro st st' h
      rw [publishLoop] at h
      rcases hstep : publishStep E vs n st with _ | st₁
      · rw [hstep] at h; exact Option.noConfusion h
      rw [hstep] at h
      simp only [Option.bind_eq_bind, Option.some_bind] at h
      rcases ht : vs[st.val]? with _ | t
      · simp [publishStep, ht] at hstep
      rcases hs : vs[st.val + 1]? with _ | s
      · simp [publishStep, ht, hs] at hstep
      rcases hc : vs[st.val + 2]? with _ | c
      · simp [publishStep, ht, hs, hc] at hstep
      rw [publishStep_eq E vs n st ht hs hc] at hstep
      rw [Option.some_inj] at hstep
      subst hstep
      have hdrop : vs.drop st.val = t :: s :: c :: vs.drop (st.val + 3) := by
        rw [getElem?_some_drop ht, getElem?_some_drop hs, getElem?_some_drop hc]
      obtain ⟨hval, hlen, hrec, hrun, hml, hmt, hms, hns, hwoh, hmc, hnc⟩ :=
        ih _ st' h
      rw [hdrop]
      simp only [readingsSpec, recordsSpec, List.map_cons, List.foldl_cons,
        List.length_cons] at *
      refine ⟨by omega, by omega, ?_, ?_, ?_, ?_, ?_, ?_, ?_, ?_, ?_⟩
      all_goals simp_all [recordsSpec]

theorem publishStep_some (E : ℚ) (vs : List ℚ) (name : String)
    (st st₁ : LoopState) (h : publishStep E vs name st = some st₁) :
    st.val + 3 ≤ vs.length ∧ st₁.val = st.val + 3 := by
  rcases ht : vs[st.val]? with _ | t
  · simp [publishStep, ht] at h
  rcases hs : vs[st.val + 1]? with _ | s
  · simp [publishStep, ht, hs] at h
  rcases hc : vs[st.val + 2]? with _ | c
  · simp [publishStep, ht, hs, hc] at h
  rw [publishStep_eq E vs name st ht hs hc, Option.some_inj] at h
  subst h
  refine ⟨?_, rfl⟩
  rw [List.getElem?_eq_some] at hc
  obtain ⟨h2, _⟩ := hc
  omega

/-- The per-joint loop completes (all positional reads are in range) exactly
when the response still holds three values for every remaining joint. -/
theorem publishLoop_isSome (E : ℚ) (vs : List ℚ) :
    ∀ (names : List String) (st : LoopState),
      (publishLoop E vs names st).isSome ↔
        (names = [] ∨ st.val + 3 * names.length ≤ vs.length) := by
  intro names
  induction names with
  | nil => intro st; simp [publishLoop]
  | cons n rest ih =>
      intro st
      rw [publishLoop]
      rcases hstep : publishStep E vs n st with _ | st₁
      · have hlt := publishStep_none E vs n st hstep
        simp only [Option.bind_eq_bind, Option.none_bind, Option.isSome_none,
          Bool.false_eq_true, false_iff, not_or, List.length_cons]
        exact ⟨List.cons_ne_nil n rest, by omega⟩
      · obtain ⟨hle, hval⟩ := publishStep_some E vs n st st₁ hstep
        simp only [Option.bind_eq_bind, Option.some_bind, List.length_cons]
        rw [ih st₁, hval]
        constructor
        · rintro (h0 | h1)
          · subst h0; right; simpa using hle
          · right; omega
        · rintro (h0 | h1)
          · exact absurd h0 (List.cons_ne_nil n rest)
          · rcases rest with _ | ⟨r, rs⟩
            · exact Or.inl rfl
            · right; simp only [List.length_cons] at h1 ⊢; omega

/-- A fold whose step never increases the accumulator stays at or below its
seed. -/
theorem foldl_le_seed {α β : Type} [Preorder β] (g : β → α → β)
    (hg : ∀ m x, g m x ≤ m) (l : List α) : ∀ b, l.foldl g b ≤ b := by
  induction l with
  | nil => intro b; simp
  | cons x xs ih =>
      intro b
      exact le_trans (ih (g b x)) (hg b x)

/-- A fold whose step never decreases the accumulator stays at or above its
seed. -/
theorem seed_le_foldl {α β : Type} [Preorder β] (g : β → α → β)
    (hg : ∀ m x, m ≤ g m x) (l : List α) : ∀ b, b ≤ l.foldl g b := by
  induction l with
  | nil => intro b; simp
  | cons x xs ih =>
      intro b
      exact le_trans (hg b x) (ih (g b x))

theorem setAggregatedMessage_level (cls : Nat × String) (rs : RunningStatus) :
    (setAggregatedMessage cls rs).level = max rs.level cls.1 := by
  unfold setAggregatedMessage
  split <;> simp <;> omega

/-- The running status's level is exactly the max-fold of the folded levels. -/
theorem foldl_setAgg_level (E : ℚ) (l : List (String × ℚ × ℚ × ℚ)) :
    ∀ rs : RunningStatus,
      (l.foldl (fun rs x => setAggregatedMessage (classifyJoint E x.1 x.2.1) rs)
        rs).level =
      l.foldl (fun m x => max m (classifyJoint E x.1 x.2.1).1) rs.level := by
  induction l with
  | nil => intro rs; rfl
  | cons x xs ih =>
      intro rs
      simp only [List.foldl_cons, ih, setAggregatedMessage_level]

/-- The running status after a fold is either untouched or carries the level
and message of one of the folded classifications. -/
theorem foldl_setAgg_cases (E : ℚ) (l : List (String × ℚ × ℚ × ℚ)) :
    ∀ rs : RunningStatus,
      (l.foldl (fun rs x => setAggregatedMessage (classifyJoint E x.1 x.2.1) rs)
        rs) = rs ∨
      ∃ x ∈ l,
        (l.foldl (fun rs x => setAggregatedMessage (classifyJoint E x.1 x.2.1) rs)
          rs) =
        { level := (classifyJoint E x.1 x.2.1).1
        , message := (classifyJoint E x.1 x.2.1).2 } := by
  induction l with
  | nil => intro rs; exact Or.inl rfl
  | cons x xs ih =>
      intro rs
      simp only [List.foldl_cons]
      rcases ih (setAggregatedMessage (classifyJoint E x.1 x.2.1) rs) with h | ⟨y, hy, h⟩
      · rw [h]
        unfold setAggregatedMessage
        split
        · exact Or.inr ⟨x, List.mem_cons_self x xs, rfl⟩
        · exact Or.inl rfl
      · exact Or.inr ⟨y, List.mem_cons_of_mem x hy, h⟩

/-- Shape of a completed cycle (bulk read succeeded, all reads in range). -/
theorem publish_ok_eq (joints : List String) (E : ℚ) (vs : List ℚ)
    (r : PublishResult) (h : publish joints E (Except.ok vs) = some r) :
    ∃ st, publishLoop E vs joints initState = some st ∧
      r = { msgs := [st.records ++ [aggRecord st]]
          , ret := if ERRORlvl ≤ st.running.level then false else true
          , status := st.running } := by
  rcases hl : publishLoop E vs joints initState with _ | st
  · simp [publish, hl] at h
  · simp only [publish, hl, Option.some_inj] at h
    exact ⟨st, rfl, h.symm⟩

/-- Positional reconstruction: the `i`-th chunked reading is the `i`-th
joint paired with the response values at positions `3i`, `3i+1`, `3i+2`. -/
theorem readingsSpec_get (names : List String) :
    ∀ (vs : List ℚ) (i : Nat) (name : String) (t s c : ℚ),
      names.get? i = some name → vs[3 * i]? = some t →
      vs[3 * i + 1]? = some s → vs[3 * i + 2]? = some c →
      (readingsSpec names vs).get? i = some (name, t, s, c) := by
  induction names with
  | nil => intro vs i name t s c hn _ _ _; simp at hn
  | cons n rest ih =>
      intro vs i name t s c hn ht hs hc
      obtain ⟨hlt, -⟩ := List.getElem?_eq_some.mp hc
      match vs, hlt with
      | v0 :: v1 :: v2 :: vtail, _ =>
        cases i with
        | zero =>
            simp only [List.get?_cons_zero, Option.some_inj] at hn
            subst hn
            simp only [Nat.mul_zero] at ht hs hc
            simp only [List.getElem?_cons_zero, Option.some_inj] at ht
            have hs' : v1 = s := by simpa using hs
            have hc' : v2 = c := by simpa using hc
            subst ht; subst hs'; subst hc'
            rfl
        | succ j =>
            simp only [List.get?_cons_succ] at hn
            have e1 : 3 * (j + 1) = 3 * j + 2 + 1 := by ring
            have e2 : 3 * (j + 1) + 1 = 3 * j + 2 + 1 + 1 := by ring
            have e3 : 3 * (j + 1) + 2 = 3 * j + 2 + 1 + 1 + 1 := by ring
            rw [e1] at ht; rw [e2] at hs; rw [e3] at hc
            simp only [List.getElem?_cons_succ] at ht hs hc
            show (readingsSpec rest vtail).get? j = some (name, t, s, c)
            exact ih vtail j name t s c hn ht hs hc

theorem keys_tocheck_length (joints : List String) :
    (keys_tocheck joints).length = 3 * joints.length := by
  induction joints with
  | nil => rfl
  | cons n rest ih =>
      show (_ :: _ :: _ :: keys_tocheck rest).length = _
      simp only [List.length_cons, ih, List.length_cons]
      omega

/-- The three reading keys of the `i`-th joint sit at positions `3i`,
`3i+1`, `3i+2`, in the order temperature, stiffness (`Hardness`), current. -/
theorem keys_tocheck_get (joints : List String) :
    ∀ (i : Nat) (name : String), joints.get? i = some name →
      (keys_tocheck joints).get? (3 * i) =
        some ("Device/SubDeviceList/" ++ name ++ "/Temperature/Sensor/Value") ∧
      (keys_tocheck joints).get? (3 * i + 1) =
        some ("Device/SubDeviceList/" ++ name ++ "/Hardness/Actuator/Value") ∧
      (keys_tocheck joints).get? (3 * i + 2) =
        some ("Device/SubDeviceList/" ++ name ++ "/ElectricCurrent/Sensor/Value") := by
  induction joints with
  | nil => intro i name hn; simp at hn
  | cons n rest ih =>
      intro i name hn
      have hkeys : keys_tocheck (n :: rest) =
          ("Device/SubDeviceList/" ++ n ++ "/Temperature/Sensor/Value") ::
          ("Device/SubDeviceList/" ++ n ++ "/Hardness/Actuator/Value") ::
          ("Device/SubDeviceList/" ++ n ++ "/ElectricCurrent/Sensor/Value") ::
          keys_tocheck rest := rfl
      cases i with
      | zero =>
          simp only [List.get?_cons_zero, Option.some_inj] at hn
          subst hn
          exact ⟨rfl, rfl, rfl⟩
      | succ j =>
          simp only [List.get?_cons_succ] at hn
          have e1 : 3 * (j + 1) = 3 * j + 1 + 1 + 1 := by ring
          have e2 : 3 * (j + 1) + 1 = (3 * j + 1) + 1 + 1 + 1 := by ring
          have e3 : 3 * (j + 1) + 2 = (3 * j + 2) + 1 + 1 + 1 := by ring
          rw [hkeys, e3, e2, e1]
          simp only [List.get?_cons_succ]
          exact ih j name hn

theorem foldl_filter_cond {α β : Type} (p : α → Bool) (f : β → α → β)
    (l : List α) :
    ∀ b, (l.filter p).foldl f b =
      l.foldl (fun m x => if p x then f m x else m) b := by
  induction l with
  | nil => intro b; rfl
  | cons x xs ih =>
      intro b
      rw [List.filter_cons, List.foldl_cons]
      by_cases hp : p x
      · simp only [hp, if_true, List.foldl_cons, ih]
      · simp only [Bool.not_eq_true] at hp
        simp only [hp, Bool.false_eq_true, if_false, ih]

/-- One-stop decomposition of a completed cycle: the emitted message, return
value and final status, with every loop variable replaced by its fold over
the chunked readings. -/
theorem publish_ok_parts (joints : List String) (E : ℚ) (vs : List ℚ)
    (r : PublishResult) (h : publish joints E (Except.ok vs) = some r) :
    ∃ st, publishLoop E vs joints initState = some st ∧
      r = { msgs := [st.records ++ [aggRecord st]]
          , ret := if ERRORlvl ≤ st.running.level then false else true
          , status := st.running } ∧
      st.records = recordsSpec E joints vs ∧
      (readingsSpec joints vs).length = joints.length ∧
      st.running = (readingsSpec joints vs).foldl
        (fun rs x => setAggregatedMessage (classifyJoint E x.1 x.2.1) rs)
        { level := OKlvl, message := "OK" } ∧
      st.max_level = (readingsSpec joints vs).foldl
        (fun m x => max m (classifyJoint E x.1 x.2.1).1) OKlvl ∧
      st.maxTemperature = (readingsSpec joints vs).foldl
        (fun m x => max m x.2.1) 0 ∧
      st.maxStiffness = (readingsSpec joints vs).foldl
        (fun m x => max m x.2.2.1) 0 ∧
      st.minStiffness = (readingsSpec joints vs).foldl
        (fun m x => min m x.2.2.1) 1 ∧
      st.minStiffnessWoHands = (readingsSpec joints vs).foldl
        (fun m x => if containsHand x.1 then m else min m x.2.2.1) 1 ∧
      st.maxCurrent = (readingsSpec joints vs).foldl
        (fun m x => max m x.2.2.2) 0 ∧
      st.minCurrent = (readingsSpec joints vs).foldl
        (fun m x => min m x.2.2.2) 10 := by
  obtain ⟨st, hl, hr⟩ := publish_ok_eq joints E vs r h
  obtain ⟨hval, hlen, hrec, hrun, hml, hmt, hms, hns, hwoh, hmc, hnc⟩ :=
    publishLoop_char E vs joints initState st hl
  simp only [initState, List.drop_zero,
    List.nil_append] at hrec hlen hrun hml hmt hms hns hwoh hmc hnc
  exact ⟨st, hl, hr, hrec, hlen, hrun, hml, hmt, hms, hns, hwoh, hmc, hnc⟩

/-! ## The claims -/

/-- C3: if the bulk read of all reading keys raises, `publish` returns
`false`, emits no message on the output channel, and leaves the running
overall status at its cycle-reset value (level OK, message "OK"). -/
theorem c3_query_failure_publishes_nothing (joints : List String) (E : ℚ)
    (err : String) :
    publish joints E (Except.error err) =
      some { msgs := []
           , ret := false
           , status := { level := OKlvl, message := "OK" } } := rfl

/-- C9: the per-joint loop indexes the response positionally with no length
check, so the cycle is well-defined (every index in range) exactly when the
response holds at least `3 × N` values for `N` joints. -/
theorem c9_publish_defined_iff_enough_values (joints : List String) (E : ℚ)
    (vs : List ℚ) :
    (publish joints E (Except.ok vs)).isSome ↔
      3 * joints.length ≤ vs.length := by
  have hiff := publishLoop_isSome E vs joints initState
  rcases hl : publishLoop E vs joints initState with _ | st
  · rw [hl] at hiff
    simp only [initState, Option.isSome_none, Bool.false_eq_true, false_iff,
      not_or, not_le] at hiff
    simp only [publish, hl, Option.isSome_none, Bool.false_eq_true, false_iff,
      not_le]
    omega
  · rw [hl] at hiff
    simp only [initState, Option.isSome_some, true_iff] at hiff
    simp only [publish, hl, Option.isSome_some, true_iff]
    rcases hiff with h0 | h1
    · subst h0; simp
    · omega

theorem records_get (joints : List String) (E : ℚ) (vs : List ℚ)
    (r : PublishResult) (h : publish joints E (Except.ok vs) = some r)
    (recs : List Wrapper) (hrecs : recs ∈ r.msgs)
    (i : Nat) (name : String) (t s c : ℚ)
    (hname : joints.get? i = some name)
    (ht : vs[3 * i]? = some t) (hs : vs[3 * i + 1]? = some s)
    (hc : vs[3 * i + 2]? = some c) :
    recs.get? i = some (jointRecord E name t s c) := by
  obtain ⟨st, -, hr, hrec, -⟩ := publish_ok_parts joints E vs r h
  subst hr
  simp only [List.mem_singleton] at hrecs
  subst hrecs
  have hri := readingsSpec_get joints vs i name t s c hname ht hs hc
  have hmap : (recordsSpec E joints vs).get? i = some (jointRecord E name t s c) := by
    unfold recordsSpec
    rw [List.get?_map, hri]
    rfl
  have hlt : i < st.records.length := by
    rw [hrec]
    by_contra hcl
    rw [List.get?_eq_getElem?,
      List.getElem?_eq_none (Nat.le_of_not_lt hcl)] at hmap
    exact Option.noConfusion hmap
  rw [List.get?_append hlt, hrec, hmap]

/-- C5: the reading-key sequence built at construction has `3N` entries,
interleaved temperature / stiffness (`Hardness`) / current per joint in
joint order, and `publish` consumes the response positionally so values
`3i`, `3i+1`, `3i+2` become the `i`-th joint's temperature, stiffness and
current record entries. -/
theorem c5_keys_and_positional_consumption :
    (∀ joints : List String,
      (keys_tocheck joints).length = 3 * joints.length) ∧
    (∀ (joints : List String) (i : Nat) (name : String),
      joints.get? i = some name →
      (keys_tocheck joints).get? (3 * i) =
        some ("Device/SubDeviceList/" ++ name ++ "/Temperature/Sensor/Value") ∧
      (keys_tocheck joints).get? (3 * i + 1) =
        some ("Device/SubDeviceList/" ++ name ++ "/Hardness/Actuator/Value") ∧
      (keys_tocheck joints).get? (3 * i + 2) =
        some ("Device/SubDeviceList/" ++ name ++ "/ElectricCurrent/Sensor/Value")) ∧
    (∀ (joints : List String) (E : ℚ) (vs : List ℚ) (r : PublishResult),
      publish joints E (Except.ok vs) = some r →
      ∀ recs ∈ r.msgs, ∀ (i : Nat) (name : String) (t s c : ℚ),
        joints.get? i = some name →
        vs[3 * i]? = some t → vs[3 * i + 1]? = some s →
        vs[3 * i + 2]? = some c →
        recs.get? i = some
          { name := "naoqi_dcm_driver_joints" ++ name
          , hardware_id := name
          , level := (classifyJoint E name t).1
          , message := (classifyJoint E name t).2
          , numValues := [("Temperature", t), ("Stiffness", s),
              ("ElectricCurrent", c)]
          , hotJoints := [] }) :=
  ⟨keys_tocheck_length, keys_tocheck_get,
    fun joints E vs r h recs hrecs i name t s c hn ht hs hc =>
      records_get joints E vs r h recs hrecs i name t s c hn ht hs hc⟩

/-- C5 witness: a two-joint cycle, checked at joint index 1. -/
theorem c5_witness :
    (keys_tocheck ["HeadYaw", "HeadPitch"]).length = 3 * 2 ∧
    (keys_tocheck ["HeadYaw", "HeadPitch"]).get? 3 =
      some "Device/SubDeviceList/HeadPitch/Temperature/Sensor/Value" ∧
    (((publish ["HeadYaw", "HeadPitch"] 75
        (Except.ok [30, 1, 2, 40, 0, 3])).getD
      { msgs := [], ret := false
      , status := { level := OKlvl, message := "" } }).msgs.headD []).get? 1 =
      some (jointRecord 75 "HeadPitch" 40 0 3) := by
  refine ⟨c5_keys_and_positional_consumption.1 _, ?_, ?_⟩
  · have := (c5_keys_and_positional_consumption.2.1
      ["HeadYaw", "HeadPitch"] 1 "HeadPitch" rfl).1
    simpa using this
  · exact c5_keys_and_positional_consumption.2.2
      ["HeadYaw", "HeadPitch"] 75 [30, 1, 2, 40, 0, 3]
      ((publish ["HeadYaw", "HeadPitch"] 75
          (Except.ok [30, 1, 2, 40, 0, 3])).getD
        { msgs := [], ret := false
        , status := { level := OKlvl, message := "" } })
      rfl
      (((publish ["HeadYaw", "HeadPitch"] 75
          (Except.ok [30, 1, 2, 40, 0, 3])).getD
        { msgs := [], ret := false
        , status := { level := OKlvl, message := "" } }).msgs.headD [])
      (by decide) 1 "HeadPitch" 40 0 3 rfl (by decide) (by decide) (by decide)

theorem classifyJoint_cases (E : ℚ) (name : String) (t : ℚ) :
    (t < temperature_warn_level → classifyJoint E name t = (OKlvl, "OK")) ∧
    (temperature_warn_level ≤ t → t < E →
      classifyJoint E name t = (WARNlvl, "Hot")) ∧
    (temperature_warn_level ≤ E → E ≤ t →
      classifyJoint E name t =
        (ERRORlvl, "HIGH JOINT TEMPERATURE : " ++ name)) := by
  unfold classifyJoint
  refine ⟨fun h1 => if_pos h1, fun h1 h2 => ?_, fun hE h1 => ?_⟩
  · rw [if_neg (not_lt.mpr h1), if_pos h2]
  · rw [if_neg (not_lt.mpr (le_trans hE h1)), if_neg (not_lt.mpr h1)]

/-- C1 (amended): within a completed publish cycle the `i`-th joint's record
level and message are a function of its temperature reading alone (the
stiffness and current readings `s`, `c` never reach the classification):
`t < 68` gives OK/"OK", `68 ≤ t < E` gives WARN/"Hot", and — provided the
error threshold sits at or above the warn threshold, as the spec assumes —
`t ≥ E` gives ERROR with message `"HIGH JOINT TEMPERATURE : <joint>"`
(space before the colon, unlike the claim's wording). -/
theorem c1_per_joint_classification
    (joints : List String) (E : ℚ) (vs : List ℚ) (r : PublishResult)
    (h : publish joints E (Except.ok vs) = some r)
    (recs : List Wrapper) (hrecs : recs ∈ r.msgs)
    (i : Nat) (name : String) (t s c : ℚ)
    (hname : joints.get? i = some name)
    (ht : vs[3 * i]? = some t) (hs : vs[3 * i + 1]? = some s)
    (hc : vs[3 * i + 2]? = some c) :
    ∃ rec, recs.get? i = some rec ∧
      rec.level = (classifyJoint E name t).1 ∧
      rec.message = (classifyJoint E name t).2 ∧
      (t < temperature_warn_level → rec.level = OKlvl ∧ rec.message = "OK") ∧
      (temperature_warn_level ≤ t → t < E →
        rec.level = WARNlvl ∧ rec.message = "Hot") ∧
      (temperature_warn_level ≤ E → E ≤ t →
        rec.level = ERRORlvl ∧
        rec.message = "HIGH JOINT TEMPERATURE : " ++ name) := by
  have hg := records_get joints E vs r h recs hrecs i name t s c hname ht hs hc
  obtain ⟨hOK, hW, hE⟩ := classifyJoint_cases E name t
  refine ⟨jointRecord E name t s c, hg, rfl, rfl, ?_, ?_, ?_⟩
  · intro h1
    exact ⟨by simp [jointRecord, hOK h1],
           by simp [jointRecord, hOK h1]⟩
  · intro h1 h2
    exact ⟨by simp [jointRecord, hW h1 h2],
           by simp [jointRecord, hW h1 h2]⟩
  · intro h1 h2
    exact ⟨by simp [jointRecord, hE h1 h2],
           by simp [jointRecord, hE h1 h2]⟩

/-- C1 is false as literally stated: with one joint at temperature 80 and
error threshold 75, the record's message is
`"HIGH JOINT TEMPERATURE : HeadYaw"` — with a space before the colon —
not the claimed `"HIGH JOINT TEMPERATURE: HeadYaw"`. -/
theorem c1_counterexample :
    ((publish ["HeadYaw"] 75 (Except.ok [80, 0, 0])).map
      (fun r => r.msgs.map (fun recs => recs.map Wrapper.message))) =
      some [["HIGH JOINT TEMPERATURE : HeadYaw", "ERROR"]] ∧
    "HIGH JOINT TEMPERATURE : HeadYaw" ≠ "HIGH JOINT TEMPERATURE: HeadYaw" :=
  ⟨rfl, by decide⟩

/-- C1 witness: one joint at 70 °C with error threshold 75 is WARN/"Hot". -/
theorem c1_witness :
    ∃ rec,
      (((publish ["A"] 75 (Except.ok [70, 0, 0])).getD
        { msgs := [], ret := false
        , status := { level := OKlvl, message := "" } }).msgs.headD []).get? 0 =
        some rec ∧
      rec.level = (classifyJoint 75 "A" 70).1 ∧
      rec.message = (classifyJoint 75 "A" 70).2 ∧
      ((70 : ℚ) < temperature_warn_level →
        rec.level = OKlvl ∧ rec.message = "OK") ∧
      (temperature_warn_level ≤ (70 : ℚ) → (70 : ℚ) < 75 →
        rec.level = WARNlvl ∧ rec.message = "Hot") ∧
      (temperature_warn_level ≤ (75 : ℚ) → (75 : ℚ) ≤ 70 →
        rec.level = ERRORlvl ∧
        rec.message = "HIGH JOINT TEMPERATURE : " ++ "A") :=
  c1_per_joint_classification ["A"] 75 [70, 0, 0]
    ((publish ["A"] 75 (Except.ok [70, 0, 0])).getD
      { msgs := [], ret := false, status := { level := OKlvl, message := "" } })
    rfl
    (((publish ["A"] 75 (Except.ok [70, 0, 0])).getD
      { msgs := [], ret := false
      , status := { level := OKlvl, message := "" } }).msgs.headD [])
    (by decide) 0 "A" 70 0 0 rfl (by decide) (by decide) (by decide)

/-- C2: in every message emitted by a completed cycle, the aggregate record
comes after the per-joint records and its level is the maximum of the
per-joint severities (OK < WARN < ERROR as 0 < 1 < 2); its message is a pure
function of that level alone — OK gives "OK", WARN gives "WARN", every
higher level gives "ERROR" — independent of which joint caused it. -/
theorem c2_aggregate_level_and_message
    (joints : List String) (E : ℚ) (vs : List ℚ) (r : PublishResult)
    (h : publish joints E (Except.ok vs) = some r)
    (recs : List Wrapper) (hrecs : recs ∈ r.msgs) :
    ∃ perJoint agg, recs = perJoint ++ [agg] ∧
      agg.level = perJoint.foldl (fun m rec => max m rec.level) OKlvl ∧
      agg.message = setMessageFromStatus agg.level ∧
      setMessageFromStatus OKlvl = "OK" ∧
      setMessageFromStatus WARNlvl = "WARN" ∧
      (∀ lvl, WARNlvl < lvl → setMessageFromStatus lvl = "ERROR") := by
  obtain ⟨st, hl, hr, hrec, hlen, hrun, hml, hmt, hms, hns, hwoh, hmc, hnc⟩ :=
    publish_ok_parts joints E vs r h
  subst hr
  simp only [List.mem_singleton] at hrecs
  subst hrecs
  refine ⟨st.records, aggRecord st, rfl, ?_, rfl, rfl, rfl, ?_⟩
  · show st.max_level = _
    rw [hml, hrec]
    unfold recordsSpec
    rw [List.foldl_map]
    rfl
  · intro lvl hlvl
    have h0 : lvl ≠ OKlvl := by
      simp only [OKlvl, WARNlvl] at hlvl ⊢; omega
    have h1 : lvl ≠ WARNlvl := by
      simp only [WARNlvl] at hlvl ⊢; omega
    simp [setMessageFromStatus, h0, h1]

/-- C2 witness: one WARN joint and one OK joint give a WARN aggregate. -/
theorem c2_witness :
    ∃ perJoint agg,
      (((publish ["J1", "J2"] 75 (Except.ok [70, 0, 2, 60, 0, 1])).getD
        { msgs := [], ret := false
        , status := { level := OKlvl, message := "" } }).msgs.headD []) =
        perJoint ++ [agg] ∧
      agg.level = perJoint.foldl (fun m rec => max m rec.level) OKlvl ∧
      agg.message = setMessageFromStatus agg.level ∧
      setMessageFromStatus OKlvl = "OK" ∧
      setMessageFromStatus WARNlvl = "WARN" ∧
      (∀ lvl, WARNlvl < lvl → setMessageFromStatus lvl = "ERROR") :=
  c2_aggregate_level_and_message ["J1", "J2"] 75 [70, 0, 2, 60, 0, 1]
    ((publish ["J1", "J2"] 75 (Except.ok [70, 0, 2, 60, 0, 1])).getD
      { msgs := [], ret := false, status := { level := OKlvl, message := "" } })
    rfl
    (((publish ["J1", "J2"] 75 (Except.ok [70, 0, 2, 60, 0, 1])).getD
      { msgs := [], ret := false
      , status := { level := OKlvl, message := "" } }).msgs.headD [])
    (by decide)

/-- C4: a completed cycle returns `false` exactly when the final running
severity is ERROR or worse; in particular, when the highest per-joint
severity of the emitted records is WARN the cycle returns `true`. -/
theorem c4_return_false_iff_error
    (joints : List String) (E : ℚ) (vs : List ℚ) (r : PublishResult)
    (h : publish joints E (Except.ok vs) = some r) :
    (r.ret = false ↔ ERRORlvl ≤ r.status.level) ∧
    (∀ recs ∈ r.msgs,
      recs.dropLast.foldl (fun m rec => max m rec.level) OKlvl = WARNlvl →
      r.ret = true) := by
  obtain ⟨st, hl, hr, hrec, hlen, hrun, hml, hmt, hms, hns, hwoh, hmc, hnc⟩ :=
    publish_ok_parts joints E vs r h
  subst hr
  constructor
  · show (if ERRORlvl ≤ st.running.level then false else true) = false ↔
      ERRORlvl ≤ st.running.level
    split_ifs with hcond
    · simp [hcond]
    · simp [hcond]
  · intro recs hrecs hfold
    simp only [List.mem_singleton] at hrecs
    subst hrecs
    rw [List.dropLast_concat] at hfold
    have hrl : st.running.level =
        st.records.foldl (fun m rec => max m rec.level) OKlvl := by
      rw [hrun, foldl_setAgg_level, hrec]
      unfold recordsSpec
      rw [List.foldl_map]
      rfl
    show (if ERRORlvl ≤ st.running.level then false else true) = true
    rw [if_neg]
    rw [hrl, hfold]
    decide

/-- C4 witness: a cycle whose worst joint is WARN returns `true`. -/
theorem c4_witness :
    ((((publish ["K1"] 80 (Except.ok [70, 1, 2])).getD
      { msgs := [], ret := false
      , status := { level := OKlvl, message := "" } }).ret = false) ↔
      ERRORlvl ≤ ((publish ["K1"] 80 (Except.ok [70, 1, 2])).getD
        { msgs := [], ret := false
        , status := { level := OKlvl, message := "" } }).status.level) ∧
    (∀ recs ∈ ((publish ["K1"] 80 (Except.ok [70, 1, 2])).getD
      { msgs := [], ret := false
      , status := { level := OKlvl, message := "" } }).msgs,
      recs.dropLast.foldl (fun m rec => max m rec.level) OKlvl = WARNlvl →
      ((publish ["K1"] 80 (Except.ok [70, 1, 2])).getD
        { msgs := [], ret := false
        , status := { level := OKlvl, message := "" } }).ret = true) :=
  c4_return_false_iff_error ["K1"] 80 [70, 1, 2]
    ((publish ["K1"] 80 (Except.ok [70, 1, 2])).getD
      { msgs := [], ret := false, status := { level := OKlvl, message := "" } })
    rfl

/-- C6: `setAggregatedMessage` rewrites the running status only on strict
escalation, so across any run of the per-joint loop the running severity
never decreases. -/
theorem c6_monotonic_escalation :
    (∀ (cls : Nat × String) (running : RunningStatus),
      (running.level < cls.1 →
        setAggregatedMessage cls running =
          { level := cls.1, message := cls.2 }) ∧
      (¬ running.level < cls.1 →
        setAggregatedMessage cls running = running)) ∧
    (∀ (E : ℚ) (vs : List ℚ) (names : List String) (st st' : LoopState),
      publishLoop E vs names st = some st' →
      st.running.level ≤ st'.running.level) := by
  constructor
  · intro cls running
    constructor
    · intro hlt; unfold setAggregatedMessage; rw [if_pos hlt]
    · intro hge; unfold setAggregatedMessage; rw [if_neg hge]
  · intro E vs names st st' h
    obtain ⟨hval, hlen, hrec, hrun, hml, hmt, hms, hns, hwoh, hmc, hnc⟩ :=
      publishLoop_char E vs names st st' h
    rw [hrun, foldl_setAgg_level]
    exact seed_le_foldl _ (fun m x => le_max_left _ _) _ _

/-- C6 witness: one WARN joint strictly escalates the running OK level. -/
theorem c6_witness :
    initState.running.level ≤
      ((publishLoop 75 [70, 0, 0] ["B"] initState).getD
        initState).running.level :=
  c6_monotonic_escalation.2 75 [70, 0, 0] ["B"] initState
    ((publishLoop 75 [70, 0, 0] ["B"] initState).getD initState) rfl

/-- C7: in the aggregate record of every completed cycle, "Lowest Stiffness"
folds `min` (seed 1) over the stiffness readings of all joints, while
"Lowest Stiffness without Hands" folds it over exactly those joints whose
name does not contain the substring "Hand". -/
theorem c7_min_stiffness_without_hands
    (joints : List String) (E : ℚ) (vs : List ℚ) (r : PublishResult)
    (h : publish joints E (Except.ok vs) = some r)
    (recs : List Wrapper) (hrecs : recs ∈ r.msgs) :
    ∃ agg, recs.getLast? = some agg ∧
      agg.numValues.get? 2 = some ("Lowest Stiffness",
        ((readingsSpec joints vs).map (fun x => x.2.2.1)).foldl min 1) ∧
      agg.numValues.get? 3 = some ("Lowest Stiffness without Hands",
        (((readingsSpec joints vs).filter
          (fun x => !decide (containsHand x.1))).map
          (fun x => x.2.2.1)).foldl min 1) := by
  obtain ⟨st, hl, hr, hrec, hlen, hrun, hml, hmt, hms, hns, hwoh, hmc, hnc⟩ :=
    publish_ok_parts joints E vs r h
  subst hr
  simp only [List.mem_singleton] at hrecs
  subst hrecs
  refine ⟨aggRecord st, List.getLast?_concat _, ?_, ?_⟩
  · show (some ("Lowest Stiffness", st.minStiffness) : Option (String × ℚ)) = _
    rw [hns, List.foldl_map]
  · show (some ("Lowest Stiffness without Hands", st.minStiffnessWoHands) :
      Option (String × ℚ)) = _
    rw [hwoh, List.foldl_map, foldl_filter_cond]
    have hfun : ∀ (m : ℚ) (x : String × ℚ × ℚ × ℚ),
        (if (!decide (containsHand x.1)) = true then min m x.2.2.1 else m) =
        (if containsHand x.1 then m else min m x.2.2.1) := by
      intro m x
      by_cases hx : containsHand x.1 <;> simp [hx]
    simp only [hfun]

/-- C7 witness: the spec's example — LHand at stiffness 0.1 and RShoulder at
stiffness 0.5 give minStiffness 0.1 but minStiffnessWoHands 0.5. -/
theorem c7_witness :
    (∃ agg,
      (((publish ["LHand", "RShoulder"] 75
          (Except.ok [30, Rat.divInt 1 10, 0, 30, Rat.divInt 1 2, 0])).getD
        { msgs := [], ret := false
        , status := { level := OKlvl, message := "" } }).msgs.headD
          []).getLast? = some agg ∧
      agg.numValues.get? 2 = some ("Lowest Stiffness",
        ((readingsSpec ["LHand", "RShoulder"]
          [30, Rat.divInt 1 10, 0, 30, Rat.divInt 1 2, 0]).map
          (fun x => x.2.2.1)).foldl min 1) ∧
      agg.numValues.get? 3 = some ("Lowest Stiffness without Hands",
        (((readingsSpec ["LHand", "RShoulder"]
          [30, Rat.divInt 1 10, 0, 30, Rat.divInt 1 2, 0]).filter
          (fun x => !decide (containsHand x.1))).map
          (fun x => x.2.2.1)).foldl min 1)) ∧
    ((readingsSpec ["LHand", "RShoulder"]
      [30, Rat.divInt 1 10, 0, 30, Rat.divInt 1 2, 0]).map
      (fun x => x.2.2.1)).foldl min 1 = Rat.divInt 1 10 ∧
    (((readingsSpec ["LHand", "RShoulder"]
      [30, Rat.divInt 1 10, 0, 30, Rat.divInt 1 2, 0]).filter
      (fun x => !decide (containsHand x.1))).map
      (fun x => x.2.2.1)).foldl min 1 = Rat.divInt 1 2 :=
  ⟨c7_min_stiffness_without_hands ["LHand", "RShoulder"] 75
    [30, Rat.divInt 1 10, 0, 30, Rat.divInt 1 2, 0]
    ((publish ["LHand", "RShoulder"] 75
        (Except.ok [30, Rat.divInt 1 10, 0, 30, Rat.divInt 1 2, 0])).getD
      { msgs := [], ret := false, status := { level := OKlvl, message := "" } })
    rfl
    (((publish ["LHand", "RShoulder"] 75
        (Except.ok [30, Rat.divInt 1 10, 0, 30, Rat.divInt 1 2, 0])).getD
      { msgs := [], ret := false
      , status := { level := OKlvl, message := "" } }).msgs.headD [])
    (by decide), by decide, by decide⟩

/-- C8 is false as stated: after a cycle whose worst joint is WARN, the
accessor reports the per-joint message "Hot" that escalated the running
status, not the aggregate record's message "WARN". -/
theorem c8_counterexample :
    ((publish ["C8J"] 75 (Except.ok [70, 0, 0])).map
      (fun r => getStatusMsg r.status)) = some "Hot" ∧
    ((publish ["C8J"] 75 (Except.ok [70, 0, 0])).map
      (fun r => r.msgs.map (fun recs => recs.getLast?.map Wrapper.message))) =
      some [some "WARN"] ∧
    ("Hot" : String) ≠ "WARN" :=
  ⟨rfl, rfl, by decide⟩

/-- C8 (amended): the accessor returns the running overall status's message
string.  Before any successful cycle it is the constructor's "OK"; after a
completed cycle it is either the cycle-reset "OK" (when no joint escalated)
or the per-joint message (such as "Hot" or
"HIGH JOINT TEMPERATURE : <joint>") of a record whose severity equals the
final running severity — not the aggregate record's level-derived message. -/
theorem c8_status_message_provenance
    (joints : List String) (E : ℚ) (vs : List ℚ) (r : PublishResult)
    (h : publish joints E (Except.ok vs) = some r) :
    getStatusMsg r.status = r.status.message ∧
    getStatusMsg initialStatus = "OK" ∧
    ((r.status.level = OKlvl ∧ r.status.message = "OK") ∨
      (∀ recs ∈ r.msgs, ∃ rec ∈ recs.dropLast,
        rec.level = r.status.level ∧ rec.message = r.status.message)) := by
  obtain ⟨st, hl, hr, hrec, hlen, hrun, hml, hmt, hms, hns, hwoh, hmc, hnc⟩ :=
    publish_ok_parts joints E vs r h
  subst hr
  refine ⟨rfl, rfl, ?_⟩
  rcases foldl_setAgg_cases E (readingsSpec joints vs)
    { level := OKlvl, message := "OK" } with hcase | ⟨x, hx, hcase⟩
  · left
    constructor
    · show st.running.level = OKlvl
      rw [hrun, hcase]
    · show st.running.message = "OK"
      rw [hrun, hcase]
  · right
    intro recs hrecs
    simp only [List.mem_singleton] at hrecs
    subst hrecs
    rw [List.dropLast_concat]
    refine ⟨jointRecord E x.1 x.2.1 x.2.2.1 x.2.2.2, ?_, ?_, ?_⟩
    · rw [hrec]
      exact List.mem_map_of_mem _ hx
    · show (classifyJoint E x.1 x.2.1).1 = st.running.level
      rw [hrun, hcase]
    · show (classifyJoint E x.1 x.2.1).2 = st.running.message
      rw [hrun, hcase]

/-- C8 witness: an all-OK cycle leaves the running message at "OK". -/
theorem c8_witness :
    getStatusMsg ((publish ["C8W"] 90 (Except.ok [20, 1, 1])).getD
      { msgs := [], ret := false
      , status := { level := OKlvl, message := "" } }).status =
      ((publish ["C8W"] 90 (Except.ok [20, 1, 1])).getD
        { msgs := [], ret := false
        , status := { level := OKlvl, message := "" } }).status.message ∧
    getStatusMsg initialStatus = "OK" ∧
    ((((publish ["C8W"] 90 (Except.ok [20, 1, 1])).getD
      { msgs := [], ret := false
      , status := { level := OKlvl, message := "" } }).status.level = OKlvl ∧
      ((publish ["C8W"] 90 (Except.ok [20, 1, 1])).getD
        { msgs := [], ret := false
        , status := { level := OKlvl, message := "" } }).status.message =
        "OK") ∨
      (∀ recs ∈ ((publish ["C8W"] 90 (Except.ok [20, 1, 1])).getD
        { msgs := [], ret := false
        , status := { level := OKlvl, message := "" } }).msgs,
        ∃ rec ∈ recs.dropLast,
          rec.level = ((publish ["C8W"] 90 (Except.ok [20, 1, 1])).getD
            { msgs := [], ret := false
            , status := { level := OKlvl, message := "" } }).status.level ∧
          rec.message = ((publish ["C8W"] 90 (Except.ok [20, 1, 1])).getD
            { msgs := [], ret := false
            , status := { level := OKlvl, message := "" } }).status.message)) :=
  c8_status_message_provenance ["C8W"] 90 [20, 1, 1]
    ((publish ["C8W"] 90 (Except.ok [20, 1, 1])).getD
      { msgs := [], ret := false, status := { level := OKlvl, message := "" } })
    rfl

/-- C10: the aggregate statistics fold from fixed non-neutral seeds, so
every published aggregate record reports maxima at least 0 and minima at
most their seeds (1 for both stiffness minima, 10 for current), whatever
the readings; and for an empty joint list a successful cycle publishes one
message holding only the aggregate record, level OK, exactly the seed
statistics, an empty hot-joints block, and returns `true`. -/
theorem c10_seeded_statistics :
    (∀ (joints : List String) (E : ℚ) (bulk : Except String (List ℚ))
      (r : PublishResult), publish joints E bulk = some r →
      ∀ recs ∈ r.msgs, ∃ agg, recs.getLast? = some agg ∧
        ∃ mT mS nS nSW mC nC,
          agg.numValues =
            [ ("Highest Temperature", mT), ("Highest Stiffness", mS)
            , ("Lowest Stiffness", nS), ("Lowest Stiffness without Hands", nSW)
            , ("Highest Electric Current", mC)
            , ("Lowest Electric current", nC) ] ∧
          0 ≤ mT ∧ 0 ≤ mS ∧ nS ≤ 1 ∧ nSW ≤ 1 ∧ 0 ≤ mC ∧ nC ≤ 10) ∧
    (∀ (E : ℚ) (vs : List ℚ),
      publish [] E (Except.ok vs) =
        some { msgs := [[{ name := "naoqi_dcm_driver_joints:Status"
                         , hardware_id := "joints"
                         , level := OKlvl
                         , message := "OK"
                         , numValues :=
                             [ ("Highest Temperature", 0)
                             , ("Highest Stiffness", 0)
                             , ("Lowest Stiffness", 1)
                             , ("Lowest Stiffness without Hands", 1)
                             , ("Highest Electric Current", 0)
                             , ("Lowest Electric current", 10) ]
                         , hotJoints := [] }]]
             , ret := true
             , status := { level := OKlvl, message := "OK" } }) := by
  constructor
  · intro joints E bulk r h recs hrecs
    cases bulk with
    | error e =>
        rw [show publish joints E (Except.error e) =
          some { msgs := [], ret := false
               , status := { level := OKlvl, message := "OK" } } from rfl,
          Option.some_inj] at h
        subst h
        simp at hrecs
    | ok vs =>
        obtain ⟨st, hl, hr, hrec, hlen, hrun, hml, hmt, hms, hns, hwoh, hmc,
          hnc⟩ := publish_ok_parts joints E vs r h
        subst hr
        simp only [List.mem_singleton] at hrecs
        subst hrecs
        refine ⟨aggRecord st, List.getLast?_concat _, st.maxTemperature,
          st.maxStiffness, st.minStiffness, st.minStiffnessWoHands,
          st.maxCurrent, st.minCurrent, rfl, ?_, ?_, ?_, ?_, ?_, ?_⟩
        · rw [hmt]
          exact seed_le_foldl _ (fun m x => le_max_left _ _) _ _
        · rw [hms]
          exact seed_le_foldl _ (fun m x => le_max_left _ _) _ _
        · rw [hns]
          exact foldl_le_seed _ (fun m x => min_le_left _ _) _ _
        · rw [hwoh]
          refine foldl_le_seed _ (fun m x => ?_) _ _
          dsimp only
          split
          · exact le_refl m
          · exact min_le_left _ _
        · rw [hmc]
          exact seed_le_foldl _ (fun m x => le_max_left _ _) _ _
        · rw [hnc]
          exact foldl_le_seed _ (fun m x => min_le_left _ _) _ _
  · intro E vs
    rfl

/-- C10 witness: one joint with stiffness above the seed still reports
`Lowest Stiffness` bounded by the seed 1. -/
theorem c10_witness :
    ∃ agg,
      (((publish ["W10"] 75 (Except.ok [50, 2, 7])).getD
        { msgs := [], ret := false
        , status := { level := OKlvl, message := "" } }).msgs.headD
          []).getLast? = some agg ∧
      ∃ mT mS nS nSW mC nC,
        agg.numValues =
          [ ("Highest Temperature", mT), ("Highest Stiffness", mS)
          , ("Lowest Stiffness", nS), ("Lowest Stiffness without Hands", nSW)
          , ("Highest Electric Current", mC)
          , ("Lowest Electric current", nC) ] ∧
        0 ≤ mT ∧ 0 ≤ mS ∧ nS ≤ 1 ∧ nSW ≤ 1 ∧ 0 ≤ mC ∧ nC ≤ 10 :=
  c10_seeded_statistics.1 ["W10"] 75 (Except.ok [50, 2, 7])
    ((publish ["W10"] 75 (Except.ok [50, 2, 7])).getD
      { msgs := [], ret := false, status := { level := OKlvl, message := "" } })
    rfl
    (((publish ["W10"] 75 (Except.ok [50, 2, 7])).getD
      { msgs := [], ret := false
      , status := { level := OKlvl, message := "" } }).msgs.headD [])
    (by decide)

end NaoqiDiag
